import Mathlib

/-!
Verification development for the lookup-join execution engine of ekuiper
(internal/topo/node/lookup_node.go), shallowly embedded in Lean 4.

The embedding follows the Go source directly:
* `LookupNode.lookup` (lines 163-225) is split, as in the source, into the
  result-obtaining phase (key evaluation, cache consultation, adapter call)
  and the merge phase (join-result construction).
* `Exec` (lines 77-160) is embedded as a per-item step function plus a loop
  folding over a list of input items; `Broadcast` is modelled as collecting
  emitted values in order.
* The cache package (internal/topo/lookup/cache) and the expression
  evaluator (xsql) are not part of the given source; they are modelled from
  the spec (see the doc comments of `Cache` and `evalExpr`).
* Go interface values that may be nil (`api.SinkTupleList`) are modelled as
  `Option`; calling a method on a nil interface is a Go runtime panic,
  modelled by the `panics` outcome.
* Every cache `Get`/`Set` call and every adapter `Lookup` call made by the
  engine is recorded in an operation trace, so that claims counting external
  invocations can be stated.
-/

/-- Scalar values that key expressions evaluate to.  A Go `nil` (null) is
represented outside this type, as `Option Value := none`. -/
inductive Value where
  | vInt (i : Int)
  | vStr (s : String)
  | vBool (b : Bool)
deriving DecidableEq, Repr

/-- Go `fmt.Sprintf("%v", x)` rendering of a scalar: integers in decimal,
strings verbatim (no quotes under `%v`), booleans as `true`/`false`. -/
def Value.goFmt : Value → String
  | .vInt i => toString i
  | .vStr s => s
  | .vBool b => if b then "true" else "false"

/-- Go `fmt.Sprintf("%v", cvs)` for a slice: elements separated by single
spaces, in square brackets.  This is the cache key computation of
lookup_node.go line 180. -/
def goFmtVals (vs : List Value) : String :=
  "[" ++ String.intercalate " " (vs.map Value.goFmt) ++ "]"

/-- A record returned by the external lookup source adapter
(`api.MessageTuple`): a field map (`ToMap`) and, when the tuple implements
`api.MetaInfo`, its metadata (`AllMeta`). -/
structure Record where
  message : List (String × Value)
  meta : Option (List (String × Value))
deriving DecidableEq, Repr

/-- An `xsql.Tuple`: emitter name, message map, metadata, timestamp.
Source rows and the right-side tuples synthesized at lines 213-218 are both
of this shape. -/
structure Tuple where
  emitter : String
  message : List (String × Value)
  metadata : Option (List (String × Value))
  timestamp : Nat
deriving DecidableEq, Repr

/-- An `xsql.JoinTuple`: the ordered list of constituent tuples;
`AddTuple` appends. -/
structure JoinTuple where
  tuples : List Tuple
deriving DecidableEq, Repr

/-- The result list returned by the adapter (`api.SinkTupleList`), an
interface value: `none` models a nil interface, `some l` a non-nil list of
records. -/
abbrev SinkTupleList := Option (List Record)

/-- Modelled from the spec: the key expressions handed to the node
(`ast.Expr`, evaluated by the external `xsql.ValuerEval` collaborator, which
is not part of the given source).  Per the spec the Join Key Evaluator
produces one scalar per expression, null when the value is absent; we model
an expression as a field reference into the row plus a literal form. -/
inductive Expr where
  | fieldRef (name : String)
  | lit (v : Value)
deriving DecidableEq, Repr

/-- Modelled from the spec: evaluation of one key expression against a Row
(`ve.Eval(val)` at line 168); a field reference yields the row field value
or null when the field is absent. -/
def evalExpr (d : Tuple) : Expr → Option Value
  | .fieldRef f => (d.message.find? (fun kv => kv.1 = f)).map (·.2)
  | .lit v => some v

/-- `ast.JoinType`; the source only discriminates LEFT against the rest
(line 197 checks `n.joinType == ast.LEFT_JOIN`). -/
inductive JoinType where
  | leftJoin
  | innerJoin
deriving DecidableEq, Repr

/-- `LookupConf` (lookup_node.go lines 32-36). -/
structure LookupConf where
  cache : Bool
  cacheTTL : Nat
  cacheMissingKey : Bool
deriving DecidableEq, Repr

/-- Modelled from the spec: the TTL cache (internal/topo/lookup/cache is not
part of the given source).  Per the spec: key is the stringified join-key
vector; `Get` never returns an expired entry; an entry set at time T expires
at T+TTL; `Set` inserts or overwrites resetting expiry, and when
`cacheMissingKey` is false an empty Lookup Result is simply not cached. -/
structure Cache where
  ttl : Nat
  cacheMissingKey : Bool
  entries : List (String × SinkTupleList × Nat)
deriving DecidableEq, Repr

/-- Cache `Get`: returns the stored value when the key is present and not
expired (`now < setTime + ttl`). -/
def Cache.get (c : Cache) (k : String) (now : Nat) : Option SinkTupleList :=
  match c.entries.find? (fun e => e.1 = k) with
  | some (_, v, t) => if now < t + c.ttl then some v else none
  | none => none

/-- Whether `Set` stores this value: an empty (non-nil, length-zero) result
is dropped when `cacheMissingKey` is false. -/
def Cache.stores (c : Cache) (r : SinkTupleList) : Bool :=
  match r with
  | some l => decide (l ≠ []) || c.cacheMissingKey
  | none => true

/-- Cache `Set`: inserts or overwrites the entry with expiry reset to
`now + ttl`; subject to the missing-key toggle. -/
def Cache.set (c : Cache) (k : String) (r : SinkTupleList) (now : Nat) : Cache :=
  if c.stores r then
    { c with entries := (k, r, now) :: c.entries.filter (fun e => e.1 ≠ k) }
  else c

/-- One recorded engine-side operation: a cache read, a cache write (the
call made at line 187, regardless of what the cache then stores), or an
external adapter invocation (lines 183/190). -/
inductive Op where
  | cacheGet (k : String)
  | cacheSet (k : String) (r : SinkTupleList)
  | nsLookup (cvs : List Value)
deriving DecidableEq, Repr

/-- The external lookup source adapter capability
(`ns.Lookup(ctx, fields, keys, cvs)`): fields, key names and key values to a
result list or an error. -/
abbrev Adapter := List String → List String → List Value → Except String SinkTupleList

/-- The lookup-join node state relevant to `lookup` and `Exec`. -/
structure LookupNode where
  name : String
  joinType : JoinType
  vals : List Expr
  fields : List String
  keys : List String
deriving Repr

/-- The evaluated Join Key Vector `cvs` (lines 165-172): one entry per key
expression, `none` for a null. -/
def keyVec (n : LookupNode) (d : Tuple) : List (Option Value) :=
  n.vals.map (evalExpr d)

/-- The `hasNil` flag of lines 166-172: some key evaluated to null. -/
def hasNilKey (n : LookupNode) (d : Tuple) : Bool :=
  (keyVec n d).any (fun v => v = none)

/-- The non-null key values handed to the cache key and the adapter (all of
them, when `hasNil` is false). -/
def keyVals (n : LookupNode) (d : Tuple) : List Value :=
  (keyVec n d).reduceOption

/-- The cache key `k := fmt.Sprintf("%v", cvs)` of line 180. -/
def cacheKey (n : LookupNode) (d : Tuple) : String :=
  goFmtVals (keyVals n d)

/-- Outcome of the result-obtaining phase of `lookup` (lines 164-194):
either a (possibly nil) result list, or an adapter error returned to the
caller. -/
inductive GetRes where
  | got (r : SinkTupleList)
  | errored (e : String)
deriving DecidableEq, Repr

/-- Result-obtaining phase of `LookupNode.lookup` (lines 164-194): evaluate
the key expressions (tracking nulls), then, when no key is null, consult the
cache if present (on miss call the adapter and `Set` the result) or call the
adapter directly.  When some key is null, `r` keeps its zero value: the nil
interface (`got none`).  Returns the outcome, the operation trace and the
cache state after the call. -/
def getPhase (n : LookupNode) (d : Tuple) (ns : Adapter) (c : Option Cache)
    (now : Nat) : GetRes × List Op × Option Cache :=
  if hasNilKey n d then
    (.got none, [], c)
  else
    match c with
    | some cc =>
      match cc.get (cacheKey n d) now with
      | some r => (.got r, [.cacheGet (cacheKey n d)], some cc)
      | none =>
        match ns n.fields n.keys (keyVals n d) with
        | .error e =>
          (.errored e, [.cacheGet (cacheKey n d), .nsLookup (keyVals n d)],
            some cc)
        | .ok r =>
          (.got r,
            [.cacheGet (cacheKey n d), .nsLookup (keyVals n d),
              .cacheSet (cacheKey n d) r],
            some (cc.set (cacheKey n d) r now))
    | none =>
      match ns n.fields n.keys (keyVals n d) with
      | .error e => (.errored e, [.nsLookup (keyVals n d)], none)
      | .ok r => (.got r, [.nsLookup (keyVals n d)], none)

/-- The right-side tuple synthesized from one matched record
(lines 213-218): emitter is the node name, message is the record map,
metadata is `AllMeta` when available, timestamp is the processing time. -/
def mkRightTuple (n : LookupNode) (rec : Record) (now : Nat) : Tuple :=
  { emitter := n.name, message := rec.message, metadata := rec.meta,
    timestamp := now }

/-- Outcome of one `lookup` call for one row: tuples appended to the batch,
an error returned, or a Go runtime panic (method call on a nil interface at
line 206). -/
inductive RowOutcome where
  | ok (appended : List JoinTuple)
  | err (e : String)
  | panics
deriving DecidableEq, Repr

/-- Merge phase of `LookupNode.lookup` (lines 196-224).  `r != nil &&
r.Len() == 0` appends the left-join tuple or returns early for inner join;
then `r.RangeOfTuples` appends one joined tuple per matched record.  When
`r` is the nil interface, the length-zero guard is false and
`r.RangeOfTuples` is a method call on a nil interface: a runtime panic. -/
def mergePhase (n : LookupNode) (d : Tuple) (r : SinkTupleList) (now : Nat) :
    RowOutcome :=
  match r with
  | none => .panics
  | some l =>
    if l.length = 0 then
      if n.joinType = .leftJoin then .ok [⟨[d]⟩]
      else .ok []
    else
      .ok (l.map (fun rec => ⟨[d, mkRightTuple n rec now]⟩))

/-- `LookupNode.lookup` (lines 163-225) for one row: the result-obtaining
phase followed by the merge phase; an adapter error is returned as is. -/
def lookupStep (n : LookupNode) (d : Tuple) (ns : Adapter) (c : Option Cache)
    (now : Nat) : RowOutcome × List Op × Option Cache :=
  match getPhase n d ns c now with
  | (.errored e, ops, c2) => (.err e, ops, c2)
  | (.got r, ops, c2) => (mergePhase n d r now, ops, c2)

/-- One element of a `*xsql.WindowTuples` content list
(`xsql.ReadonlyRow`): either a proper row or some other shape, which the
window handler rejects at lines 126-129. -/
inductive WinElem where
  | rowE (d : Tuple)
  | badE (desc : String)
deriving DecidableEq, Repr

/-- Outcome of processing one window's rows (the `d.Range` callback fold at
lines 125-135): a batch of joined tuples, an error aborting the iteration,
or a panic propagating out of the callback. -/
inductive WinOutcome where
  | ok (tuples : List JoinTuple)
  | err (e : String)
  | panics
deriving DecidableEq, Repr

/-- The window iteration of `Exec` (lines 125-135): rows are processed in
window order, each by `lookup` accumulating into the shared batch; a non-row
element or a lookup error stops the iteration with that error; a panic
propagates.  Returns the outcome, the full operation trace and the final
cache. -/
def windowGo (n : LookupNode) (ns : Adapter) (now : Nat) :
    List WinElem → Option Cache → WinOutcome × List Op × Option Cache
  | [], c => (.ok [], [], c)
  | .badE desc :: _, c =>
    (.err ("Invalid window element, must be a tuple row but got " ++ desc),
      [], c)
  | .rowE d :: rest, c =>
    match lookupStep n d ns c now with
    | (.err e, ops, c2) => (.err e, ops, c2)
    | (.panics, ops, c2) => (.panics, ops, c2)
    | (.ok ts, ops, c2) =>
      match windowGo n ns now rest c2 with
      | (.ok ts2, ops2, c3) => (.ok (ts ++ ts2), ops ++ ops2, c3)
      | (.err e, ops2, c3) => (.err e, ops ++ ops2, c3)
      | (.panics, ops2, c3) => (.panics, ops ++ ops2, c3)

/-- An input item received from the node's input channel: a single row
(`xsql.Row` case), a window (`*xsql.WindowTuples` case, carrying its window
range tag), or anything else (the `default` case at lines 145-149). -/
inductive InputItem where
  | row (d : Tuple)
  | window (elems : List WinElem) (range : Nat)
  | other (desc : String)
deriving DecidableEq, Repr

/-- A value handed to `Broadcast`: a joined-tuple batch (`*xsql.JoinTuples`,
with the window range when produced from a window) or an error value. -/
inductive Emitted where
  | batch (tuples : List JoinTuple) (range : Option Nat)
  | errorV (e : String)
deriving DecidableEq, Repr

/-- Result of processing one input item: what was broadcast (none when a
panic escaped before any broadcast), the operation trace, the cache after
the item, and whether the worker crashed (`SafeRun` catching a panic and
draining the error: the loop does not continue). -/
structure StepResult where
  out : Option Emitted
  ops : List Op
  cache : Option Cache
  crashed : Bool
deriving DecidableEq, Repr

/-- One iteration of the `Exec` receive loop (lines 105-149): dispatch on
the input shape; broadcast the batch on success and the error value on
failure; any other input shape broadcasts an invalid-input error and the
loop continues. -/
def processItem (n : LookupNode) (ns : Adapter) (c : Option Cache)
    (now : Nat) : InputItem → StepResult
  | .row d =>
    match lookupStep n d ns c now with
    | (.ok ts, ops, c2) =>
      { out := some (.batch ts none), ops := ops, cache := c2,
        crashed := false }
    | (.err e, ops, c2) =>
      { out := some (.errorV e), ops := ops, cache := c2, crashed := false }
    | (.panics, ops, c2) =>
      { out := none, ops := ops, cache := c2, crashed := true }
  | .window elems range =>
    match windowGo n ns now elems c with
    | (.ok ts, ops, c2) =>
      { out := some (.batch ts (some range)), ops := ops, cache := c2,
        crashed := false }
    | (.err e, ops, c2) =>
      { out := some (.errorV e), ops := ops, cache := c2, crashed := false }
    | (.panics, ops, c2) =>
      { out := none, ops := ops, cache := c2, crashed := true }
  | .other desc =>
    { out := some (.errorV
        ("run lookup node error: invalid input type but got " ++ desc)),
      ops := [], cache := c, crashed := false }

/-- The `Exec` receive loop over a finite schedule of input items, each
tagged with its arrival time: items are processed in order, threading the
cache; a crash (escaped panic) terminates the loop, discarding the rest of
the schedule.  Returns the broadcast values in emission order, the final
cache, and whether the worker crashed. -/
def execLoop (n : LookupNode) (ns : Adapter) :
    List (InputItem × Nat) → Option Cache →
    List Emitted × Option Cache × Bool
  | [], c => ([], c, false)
  | (item, now) :: rest, c =>
    let sr := processItem n ns c now item
    if sr.crashed then (sr.out.toList, sr.cache, true)
    else
      match execLoop n ns rest sr.cache with
      | (outs, c2, crashed) => (sr.out.toList ++ outs, c2, crashed)

/-- Recognizer for external adapter invocations in an operation trace. -/
def Op.isAdapterCall : Op → Bool
  | .nsLookup _ => true
  | _ => false

/-- Number of external adapter invocations recorded in a trace. -/
def adapterCalls (ops : List Op) : Nat :=
  (ops.filter Op.isAdapterCall).length

/-! Concrete fixtures used to evaluate the embedded engine on closed
inputs: a node joining on the single key field `k`, rows carrying (or
missing) that field, small adapters and cache configurations. -/

/-- A lookup node left-joining on key field `k`. -/
def nodeLeftK : LookupNode :=
  { name := "lookup1", joinType := .leftJoin, vals := [.fieldRef "k"],
    fields := ["f1"], keys := ["k"] }

/-- The same node with inner join. -/
def nodeInnerK : LookupNode :=
  { nodeLeftK with joinType := .innerJoin }

/-- A row whose field `k` holds the given value. -/
def rowK (v : Value) : Tuple :=
  { emitter := "src", message := [("k", v)], metadata := none,
    timestamp := 0 }

/-- A row without the key field `k`: its join key evaluates to null. -/
def rowNoK : Tuple :=
  { emitter := "src", message := [("a", .vInt 7)], metadata := none,
    timestamp := 0 }

/-- An external record. -/
def recA : Record := { message := [("name", .vStr "x")], meta := none }

/-- Another, distinguishable external record. -/
def recB : Record := { message := [("name", .vStr "y")], meta := none }

/-- Adapter always answering with a non-nil empty result list. -/
def nsEmptyRes : Adapter := fun _ _ _ => .ok (some [])

/-- Adapter always answering with the single record `recA`. -/
def nsOneRec : Adapter := fun _ _ _ => .ok (some [recA])

/-- Adapter answering `recA` for key value 1 and `recB` otherwise. -/
def nsKeyed : Adapter := fun _ _ cvs =>
  if cvs = [Value.vInt 1] then .ok (some [recA]) else .ok (some [recB])

/-- Adapter failing on key value 3 and answering `recA` otherwise. -/
def nsFail3 : Adapter := fun _ _ cvs =>
  if cvs = [Value.vInt 3] then .error "adapter down" else .ok (some [recA])

/-- An empty cache with TTL 1000 ms, not caching missing keys. -/
def cacheMF : Cache := { ttl := 1000, cacheMissingKey := false, entries := [] }

/-- `Except` values over decidable components compare decidably; needed to
evaluate adapter answers in closed statements. -/
instance (α β : Type) [DecidableEq α] [DecidableEq β] :
    DecidableEq (Except α β) := fun a b =>
  match a, b with
  | .ok x, .ok y =>
    if h : x = y then .isTrue (by rw [h]) else .isFalse (by simp [h])
  | .error x, .error y =>
    if h : x = y then .isTrue (by rw [h]) else .isFalse (by simp [h])
  | .ok _, .error _ => .isFalse (by simp)
  | .error _, .ok _ => .isFalse (by simp)

/-! Helper lemmas about the modelled cache. -/

/-- `Set` never changes the TTL. -/
theorem Cache.ttl_set (c : Cache) (k : String) (r : SinkTupleList) (now : Nat) :
    (c.set k r now).ttl = c.ttl := by
  unfold Cache.set
  split <;> rfl

/-- Reading back the key just set (when the value is stored): a hit exactly
while the entry is unexpired. -/
theorem Cache.get_set_self (c : Cache) (k : String) (r : SinkTupleList)
    (now now2 : Nat) (h : c.stores r = true) :
    (c.set k r now).get k now2 =
      if now2 < now + c.ttl then some r else none := by
  unfold Cache.set Cache.get
  rw [if_pos h]
  simp

/-- A key absent (or expired) at `now1` stays absent at any later time. -/
theorem Cache.get_none_mono (c : Cache) (k : String) (now1 now2 : Nat)
    (h : c.get k now1 = none) (hle : now1 ≤ now2) :
    c.get k now2 = none := by
  unfold Cache.get at h ⊢
  cases hf : c.entries.find? (fun e => e.1 = k) with
  | none => rfl
  | some ent =>
    obtain ⟨k0, v, t⟩ := ent
    rw [hf] at h
    dsimp only at h ⊢
    have hnot : ¬ now1 < t + c.ttl := by
      intro hc
      rw [if_pos hc] at h
      exact Option.some_ne_none _ h
    have : ¬ now2 < t + c.ttl := fun hc => hnot (lt_of_le_of_lt hle hc)
    rw [if_neg this]

/-- C1: on a row whose join key vector contains a null, `lookup` leaves `r`
as the nil result list so the merge phase calls `RangeOfTuples` on a nil
interface: the embedded engine reaches the panic outcome under LEFT join and
under inner join alike, instead of emitting the bare row (LEFT) or nothing
(inner) and returning without error. -/
theorem lookup_nullkey_panics :
    (lookupStep nodeLeftK rowNoK nsEmptyRes none 0).1 = .panics ∧
    (lookupStep nodeInnerK rowNoK nsEmptyRes none 0).1 = .panics := by
  decide

/-- C6: for a row whose join key vector contains a null, the lookup step
performs no cache Get, no cache Set and no adapter invocation (its operation
trace is empty), and the cache state is unchanged. -/
theorem nullkey_no_cache_no_adapter (n : LookupNode) (d : Tuple)
    (ns : Adapter) (c : Option Cache) (now : Nat)
    (h : hasNilKey n d = true) :
    (lookupStep n d ns c now).2.1 = [] ∧
    (lookupStep n d ns c now).2.2 = c := by
  simp [lookupStep, getPhase, h]

/-- Witness for C6 at a concrete input: the node keyed on field `k` and a
row missing that field. -/
theorem nullkey_no_cache_no_adapter_witness :
    hasNilKey nodeLeftK rowNoK = true ∧
    ((lookupStep nodeLeftK rowNoK nsOneRec (some cacheMF) 5).2.1 = [] ∧
      (lookupStep nodeLeftK rowNoK nsOneRec (some cacheMF) 5).2.2 =
        some cacheMF) :=
  ⟨by decide,
    nullkey_no_cache_no_adapter nodeLeftK rowNoK nsOneRec (some cacheMF) 5
      (by decide)⟩

/-- C4: when the result-obtaining phase yields a non-nil empty result list,
the merge step appends exactly the bare original row under LEFT join and
nothing under inner join. -/
theorem empty_result_join_semantics (n : LookupNode) (d : Tuple)
    (ns : Adapter) (c : Option Cache) (now : Nat)
    (h : (getPhase n d ns c now).1 = .got (some [])) :
    (lookupStep n d ns c now).1 =
      (if n.joinType = .leftJoin then .ok [⟨[d]⟩] else .ok []) := by
  unfold lookupStep
  rcases hg : getPhase n d ns c now with ⟨gr, ops, c2⟩
  rw [hg] at h
  dsimp only at h
  subst h
  simp [mergePhase]

/-- Witness for C4 at a concrete input: an adapter answering a non-nil empty
list, under LEFT join (one bare-row tuple) and inner join (no tuple). -/
theorem empty_result_join_semantics_witness :
    ((getPhase nodeLeftK (rowK (.vInt 1)) nsEmptyRes none 0).1 =
        .got (some []) ∧
      (lookupStep nodeLeftK (rowK (.vInt 1)) nsEmptyRes none 0).1 =
        (if nodeLeftK.joinType = .leftJoin then
          .ok [⟨[rowK (.vInt 1)]⟩] else .ok [])) ∧
    ((getPhase nodeInnerK (rowK (.vInt 1)) nsEmptyRes none 0).1 =
        .got (some []) ∧
      (lookupStep nodeInnerK (rowK (.vInt 1)) nsEmptyRes none 0).1 =
        (if nodeInnerK.joinType = .leftJoin then
          .ok [⟨[rowK (.vInt 1)]⟩] else .ok [])) :=
  ⟨⟨by decide,
      empty_result_join_semantics nodeLeftK (rowK (.vInt 1)) nsEmptyRes none 0
        (by decide)⟩,
    ⟨by decide,
      empty_result_join_semantics nodeInnerK (rowK (.vInt 1)) nsEmptyRes none 0
        (by decide)⟩⟩

/-- C8: every joined tuple appended for a row starts with the original row;
at most one further constituent follows, and any such right-side constituent
is a synthesized tuple stamped with the node's name as emitter. -/
theorem joined_tuple_shape (n : LookupNode) (d : Tuple) (ns : Adapter)
    (c : Option Cache) (now : Nat) (ts : List JoinTuple) (ops : List Op)
    (c2 : Option Cache)
    (h : lookupStep n d ns c now = (.ok ts, ops, c2)) :
    ∀ jt ∈ ts, jt.tuples.head? = some d ∧ jt.tuples.length ≤ 2 ∧
      ∀ t ∈ jt.tuples.tail, t.emitter = n.name := by
  unfold lookupStep at h
  rcases hg : getPhase n d ns c now with ⟨gr, ops0, c0⟩
  rw [hg] at h
  cases gr with
  | errored e => dsimp only at h; simp at h
  | got r =>
    dsimp only at h
    have hm : mergePhase n d r now = .ok ts := congrArg Prod.fst h
    cases r with
    | none => simp [mergePhase] at hm
    | some l =>
      intro jt hjt
      unfold mergePhase at hm
      dsimp only at hm
      by_cases hl : l.length = 0
      · rw [if_pos hl] at hm
        rcases hjl : n.joinType with _ | _
        · rw [hjl] at hm
          simp only [reduceIte] at hm
          cases hm
          simp at hjt
          subst hjt
          simp [mkRightTuple]
        · rw [hjl] at hm
          simp only [reduceCtorEq, reduceIte] at hm
          cases hm
          simp at hjt
      · rw [if_neg hl] at hm
        cases hm
        simp only [List.mem_map] at hjt
        obtain ⟨rec, _, hrec⟩ := hjt
        subst hrec
        simp [mkRightTuple]

/-- Witness for C8 at a concrete input: one matching record under LEFT
join; the single output tuple starts with the row, has two constituents,
and its right side carries the node name as emitter. -/
theorem joined_tuple_shape_witness :
    (lookupStep nodeLeftK (rowK (.vInt 1)) nsOneRec none 0 =
      (.ok [⟨[rowK (.vInt 1), mkRightTuple nodeLeftK recA 0]⟩],
        [.nsLookup [.vInt 1]], none)) ∧
    ((⟨[rowK (.vInt 1), mkRightTuple nodeLeftK recA 0]⟩ :
        JoinTuple).tuples.head? = some (rowK (.vInt 1)) ∧
      (⟨[rowK (.vInt 1), mkRightTuple nodeLeftK recA 0]⟩ :
        JoinTuple).tuples.length ≤ 2 ∧
      ∀ t ∈ (⟨[rowK (.vInt 1), mkRightTuple nodeLeftK recA 0]⟩ :
        JoinTuple).tuples.tail, t.emitter = nodeLeftK.name) :=
  ⟨by decide,
    joined_tuple_shape nodeLeftK (rowK (.vInt 1)) nsOneRec none 0
      [⟨[rowK (.vInt 1), mkRightTuple nodeLeftK recA 0]⟩]
      [.nsLookup [.vInt 1]] none (by decide)
      ⟨[rowK (.vInt 1), mkRightTuple nodeLeftK recA 0]⟩ (by decide)⟩

/-- Appending more elements after a failing row: the window iteration stops
at the first lookup error; the trailing elements contribute neither
operations nor cache changes. -/
theorem windowGo_append_err (n : LookupNode) (ns : Adapter) (now : Nat)
    (pre : List WinElem) :
    ∀ (c c1 c2 : Option Cache) (tsPre : List JoinTuple)
      (opsPre opsD : List Op) (d : Tuple) (e : String) (post : List WinElem),
      windowGo n ns now pre c = (.ok tsPre, opsPre, c1) →
      lookupStep n d ns c1 now = (.err e, opsD, c2) →
      windowGo n ns now (pre ++ .rowE d :: post) c =
        (.err e, opsPre ++ opsD, c2) := by
  induction pre with
  | nil =>
    intro c c1 c2 tsPre opsPre opsD d e post hpre hd
    simp only [windowGo] at hpre
    injection hpre with h1 hrest
    injection hrest with h2 h3
    injection h1 with h1
    subst h1; subst h2; subst h3
    simp [windowGo, hd]
  | cons el pre ih =>
    intro c c1 c2 tsPre opsPre opsD d e post hpre hd
    cases el with
    | badE desc => simp [windowGo] at hpre
    | rowE d0 =>
      simp only [windowGo] at hpre
      rcases hls : lookupStep n d0 ns c now with ⟨o, ops0, cm⟩
      rw [hls] at hpre
      cases o with
      | err e0 => simp at hpre
      | panics => simp at hpre
      | ok ts0 =>
        dsimp only at hpre
        rcases hw : windowGo n ns now pre cm with ⟨o2, ops2, c3⟩
        rw [hw] at hpre
        cases o2 with
        | err e0 => simp at hpre
        | panics => simp at hpre
        | ok ts2 =>
          dsimp only at hpre
          injection hpre with h1 hrest
          injection hrest with h2 h3
          injection h1 with h1
          subst h1; subst h2; subst h3
          have hrec := ih cm c3 c2 ts2 ops2 opsD d e post hw hd
          simp [windowGo, hls, hrec, List.append_assoc]

/-- Splitting a fully successful window iteration around one row: the batch
and the operation trace are the concatenations, in window order, of the
parts contributed by the preceding rows, the row itself and the following
rows. -/
theorem windowGo_append_ok (n : LookupNode) (ns : Adapter) (now : Nat)
    (pre : List WinElem) :
    ∀ (c c1 c2 c3 : Option Cache) (tsPre tsD tsPost : List JoinTuple)
      (opsPre opsD opsPost : List Op) (d : Tuple) (post : List WinElem),
      windowGo n ns now pre c = (.ok tsPre, opsPre, c1) →
      lookupStep n d ns c1 now = (.ok tsD, opsD, c2) →
      windowGo n ns now post c2 = (.ok tsPost, opsPost, c3) →
      windowGo n ns now (pre ++ .rowE d :: post) c =
        (.ok (tsPre ++ tsD ++ tsPost), opsPre ++ opsD ++ opsPost, c3) := by
  induction pre with
  | nil =>
    intro c c1 c2 c3 tsPre tsD tsPost opsPre opsD opsPost d post hpre hd hpost
    simp only [windowGo] at hpre
    injection hpre with h1 hrest
    injection hrest with h2 h3
    injection h1 with h1
    subst h1; subst h2; subst h3
    simp [windowGo, hd, hpost]
  | cons el pre ih =>
    intro c c1 c2 c3 tsPre tsD tsPost opsPre opsD opsPost d post hpre hd hpost
    cases el with
    | badE desc => simp [windowGo] at hpre
    | rowE d0 =>
      simp only [windowGo] at hpre
      rcases hls : lookupStep n d0 ns c now with ⟨o, ops0, cm⟩
      rw [hls] at hpre
      cases o with
      | err e0 => simp at hpre
      | panics => simp at hpre
      | ok ts0 =>
        dsimp only at hpre
        rcases hw : windowGo n ns now pre cm with ⟨o2, ops2, cmid⟩
        rw [hw] at hpre
        cases o2 with
        | err e0 => simp at hpre
        | panics => simp at hpre
        | ok ts2 =>
          dsimp only at hpre
          injection hpre with h1 hrest
          injection hrest with h2 h3
          injection h1 with h1
          subst h1; subst h2; subst h3
          have hrec := ih cm cmid c2 c3 ts2 tsD tsPost ops2 opsD opsPost d
            post hw hd hpost
          simp [windowGo, hls, hrec, List.append_assoc]

/-- C2: when, after some successfully handled prefix of a window, a row's
lookup fails with an error, the window iteration aborts there — the
remaining elements contribute nothing — and the node broadcasts that single
error value instead of any (partial) batch. -/
theorem window_error_atomic (n : LookupNode) (ns : Adapter) (now : Nat)
    (c c1 c2 : Option Cache) (pre post : List WinElem) (d : Tuple)
    (e : String) (tsPre : List JoinTuple) (opsPre opsD : List Op) (rng : Nat)
    (hpre : windowGo n ns now pre c = (.ok tsPre, opsPre, c1))
    (hd : lookupStep n d ns c1 now = (.err e, opsD, c2)) :
    windowGo n ns now (pre ++ .rowE d :: post) c =
      (.err e, opsPre ++ opsD, c2) ∧
    processItem n ns c now (.window (pre ++ .rowE d :: post) rng) =
      { out := some (.errorV e), ops := opsPre ++ opsD, cache := c2,
        crashed := false } := by
  have hw := windowGo_append_err n ns now pre c c1 c2 tsPre opsPre opsD d e
    post hpre hd
  exact ⟨hw, by simp [processItem, hw]⟩

/-- Witness for C2 at the spec's own example: a five-row window whose third
row triggers an adapter error; the emitted output is the single error, not a
partial batch of the first two joined tuples. -/
theorem window_error_atomic_witness :
    processItem nodeInnerK nsFail3 none 0
      (.window ([.rowE (rowK (.vInt 1)), .rowE (rowK (.vInt 2))] ++
        .rowE (rowK (.vInt 3)) :: [.rowE (rowK (.vInt 4)),
          .rowE (rowK (.vInt 5))]) 9) =
      { out := some (.errorV "adapter down"),
        ops := [.nsLookup [.vInt 1], .nsLookup [.vInt 2]] ++
          [.nsLookup [.vInt 3]],
        cache := none, crashed := false } :=
  (window_error_atomic nodeInnerK nsFail3 0 none none none
    [.rowE (rowK (.vInt 1)), .rowE (rowK (.vInt 2))]
    [.rowE (rowK (.vInt 4)), .rowE (rowK (.vInt 5))]
    (rowK (.vInt 3)) "adapter down"
    [⟨[rowK (.vInt 1), mkRightTuple nodeInnerK recA 0]⟩,
      ⟨[rowK (.vInt 2), mkRightTuple nodeInnerK recA 0]⟩]
    [.nsLookup [.vInt 1], .nsLookup [.vInt 2]] [.nsLookup [.vInt 3]] 9
    (by decide) (by decide)).2

/-- C7: for a window whose rows all look up successfully, the emitted batch
is the concatenation, in window order, of each row's joined tuples; and a
row whose obtained result list is non-empty contributes exactly one joined
tuple per matched record, in the order of the result list the adapter
produced. -/
theorem window_batch_ordering (n : LookupNode) (ns : Adapter) (now : Nat)
    (c c1 c2 c3 : Option Cache) (pre post : List WinElem) (d : Tuple)
    (tsPre tsD tsPost : List JoinTuple) (opsPre opsD opsPost : List Op)
    (rng : Nat)
    (hpre : windowGo n ns now pre c = (.ok tsPre, opsPre, c1))
    (hd : lookupStep n d ns c1 now = (.ok tsD, opsD, c2))
    (hpost : windowGo n ns now post c2 = (.ok tsPost, opsPost, c3)) :
    processItem n ns c now (.window (pre ++ .rowE d :: post) rng) =
      { out := some (.batch (tsPre ++ tsD ++ tsPost) (some rng)),
        ops := opsPre ++ opsD ++ opsPost, cache := c3, crashed := false } ∧
    (∀ l ops0 c0, getPhase n d ns c1 now = (.got (some l), ops0, c0) →
      l ≠ [] →
      tsD = l.map (fun rec => ⟨[d, mkRightTuple n rec now]⟩)) := by
  have hw := windowGo_append_ok n ns now pre c c1 c2 c3 tsPre tsD tsPost
    opsPre opsD opsPost d post hpre hd hpost
  refine ⟨by simp [processItem, hw], ?_⟩
  intro l ops0 c0 hg hl
  unfold lookupStep at hd
  rw [hg] at hd
  dsimp only at hd
  unfold mergePhase at hd
  dsimp only at hd
  rw [if_neg (by simpa using hl)] at hd
  injection hd with h1 hrest
  injection h1 with h1
  exact h1.symm

/-- Witness for C7 at the spec's own example: three rows each matching one
record; the batch order is the row-1 match, then the row-2 match, then the
row-3 match, and the middle row's tuples follow the adapter result order. -/
theorem window_batch_ordering_witness :
    (processItem nodeInnerK nsOneRec none 0
      (.window ([.rowE (rowK (.vInt 1))] ++
        .rowE (rowK (.vInt 2)) :: [.rowE (rowK (.vInt 3))]) 4) =
      { out := some (.batch
          ([⟨[rowK (.vInt 1), mkRightTuple nodeInnerK recA 0]⟩] ++
            [⟨[rowK (.vInt 2), mkRightTuple nodeInnerK recA 0]⟩] ++
            [⟨[rowK (.vInt 3), mkRightTuple nodeInnerK recA 0]⟩]) (some 4)),
        ops := [.nsLookup [.vInt 1]] ++ [.nsLookup [.vInt 2]] ++
          [.nsLookup [.vInt 3]],
        cache := none, crashed := false }) ∧
    (∀ l ops0 c0,
      getPhase nodeInnerK (rowK (.vInt 2)) nsOneRec none 0 =
        (.got (some l), ops0, c0) →
      l ≠ [] →
      [(⟨[rowK (.vInt 2), mkRightTuple nodeInnerK recA 0]⟩ : JoinTuple)] =
        l.map (fun rec => ⟨[rowK (.vInt 2), mkRightTuple nodeInnerK rec 0]⟩)) :=
  window_batch_ordering nodeInnerK nsOneRec 0 none none none none
    [.rowE (rowK (.vInt 1))] [.rowE (rowK (.vInt 3))] (rowK (.vInt 2))
    [⟨[rowK (.vInt 1), mkRightTuple nodeInnerK recA 0]⟩]
    [⟨[rowK (.vInt 2), mkRightTuple nodeInnerK recA 0]⟩]
    [⟨[rowK (.vInt 3), mkRightTuple nodeInnerK recA 0]⟩]
    [.nsLookup [.vInt 1]] [.nsLookup [.vInt 2]] [.nsLookup [.vInt 3]] 4
    (by decide) (by decide) (by decide)

/-- C9: an input item that is neither a row nor a window makes the loop
broadcast the invalid-input error value and continue with the remaining
items unchanged (same cache, outputs of the rest appended after the
error). -/
theorem invalid_input_reported_loop_continues (n : LookupNode) (ns : Adapter)
    (c : Option Cache) (now : Nat) (desc : String)
    (rest : List (InputItem × Nat)) :
    execLoop n ns ((.other desc, now) :: rest) c =
      (Emitted.errorV
          ("run lookup node error: invalid input type but got " ++ desc) ::
          (execLoop n ns rest c).1,
        (execLoop n ns rest c).2.1, (execLoop n ns rest c).2.2) := by
  rcases h : execLoop n ns rest c with ⟨outs, c2, cr⟩
  conv_lhs => rw [execLoop]
  simp [processItem, h]

/-- C10: the cache key is the default Go formatting of the whole key
vector, which identifies the integer 1 with the string "1": two distinct
key vectors share the cache key "[1]", and after a lookup for the integer
row is cached, the string row's lookup is served that cached record without
any adapter call — although the adapter would answer `recB` for it. -/
theorem cache_key_collision :
    keyVals nodeInnerK (rowK (.vInt 1)) ≠ keyVals nodeInnerK (rowK (.vStr "1")) ∧
    cacheKey nodeInnerK (rowK (.vInt 1)) = cacheKey nodeInnerK (rowK (.vStr "1")) ∧
    nsKeyed nodeInnerK.fields nodeInnerK.keys
      (keyVals nodeInnerK (rowK (.vStr "1"))) = .ok (some [recB]) ∧
    (lookupStep nodeInnerK (rowK (.vStr "1")) nsKeyed
        (lookupStep nodeInnerK (rowK (.vInt 1)) nsKeyed (some cacheMF) 0).2.2
        1).1 =
      .ok [⟨[rowK (.vStr "1"), mkRightTuple nodeInnerK recA 1]⟩] ∧
    adapterCalls
      (lookupStep nodeInnerK (rowK (.vStr "1")) nsKeyed
        (lookupStep nodeInnerK (rowK (.vInt 1)) nsKeyed (some cacheMF) 0).2.2
        1).2.1 = 0 := by
  decide

/-- Characterization of one lookup on a cache miss with a successful
adapter: Get, adapter Lookup and Set are performed in that order, and the
cache is updated through `Set`. -/
theorem lookupStep_miss (n : LookupNode) (d : Tuple) (ns : Adapter)
    (cc : Cache) (now : Nat) (r : SinkTupleList)
    (h1 : hasNilKey n d = false)
    (hmiss : cc.get (cacheKey n d) now = none)
    (hns : ns n.fields n.keys (keyVals n d) = .ok r) :
    lookupStep n d ns (some cc) now =
      (mergePhase n d r now,
        [.cacheGet (cacheKey n d), .nsLookup (keyVals n d),
          .cacheSet (cacheKey n d) r],
        some (cc.set (cacheKey n d) r now)) := by
  unfold lookupStep getPhase
  simp only [h1, Bool.false_eq_true, if_false, hmiss, hns]

/-- Characterization of one lookup on a cache hit: only Get is performed
and the cache is untouched. -/
theorem lookupStep_hit (n : LookupNode) (d : Tuple) (ns : Adapter)
    (cc : Cache) (now : Nat) (r : SinkTupleList)
    (h1 : hasNilKey n d = false)
    (hhit : cc.get (cacheKey n d) now = some r) :
    lookupStep n d ns (some cc) now =
      (mergePhase n d r now, [.cacheGet (cacheKey n d)], some cc) := by
  unfold lookupStep getPhase
  simp only [h1, Bool.false_eq_true, if_false, hhit]

/-- C3 counterexample: caching enabled (TTL 1000, missing keys not cached),
two lookups of the same non-null key vector 1 ms apart — well within the
TTL — yet the adapter is invoked twice, because the empty first result was
not stored. -/
theorem empty_result_two_adapter_calls :
    cacheMF.cacheMissingKey = false ∧ (1 : Nat) < cacheMF.ttl ∧
    adapterCalls
      ((lookupStep nodeInnerK (rowK (.vInt 1)) nsEmptyRes (some cacheMF)
          0).2.1 ++
        (lookupStep nodeInnerK (rowK (.vInt 1)) nsEmptyRes
          (lookupStep nodeInnerK (rowK (.vInt 1)) nsEmptyRes (some cacheMF)
            0).2.2 1).2.1) = 2 := by
  decide

/-- C3 (amended): with caching enabled, two lookups of rows with null-free
key vectors stringifying to the same cache key, within the TTL, invoke the
adapter exactly once — provided the key is not already cached at the first
lookup and the first lookup succeeds with a result that the cache stores
(non-empty, or missing-key caching enabled). -/
theorem cache_hit_single_adapter_call (n : LookupNode) (d1 d2 : Tuple)
    (ns : Adapter) (cc : Cache) (now1 now2 : Nat) (recs : List Record)
    (h1 : hasNilKey n d1 = false) (h2 : hasNilKey n d2 = false)
    (hkey : cacheKey n d2 = cacheKey n d1)
    (hmiss : cc.get (cacheKey n d1) now1 = none)
    (hns : ns n.fields n.keys (keyVals n d1) = .ok (some recs))
    (hstore : recs ≠ [] ∨ cc.cacheMissingKey = true)
    (httl : now2 < now1 + cc.ttl) :
    adapterCalls ((lookupStep n d1 ns (some cc) now1).2.1 ++
      (lookupStep n d2 ns (lookupStep n d1 ns (some cc) now1).2.2
        now2).2.1) = 1 := by
  have hs1 := lookupStep_miss n d1 ns cc now1 (some recs) h1 hmiss hns
  have hstores : cc.stores (some recs) = true := by
    unfold Cache.stores
    cases hstore with
    | inl h => simp [h]
    | inr h => simp [h]
  have hget2 : (cc.set (cacheKey n d1) (some recs) now1).get (cacheKey n d2)
      now2 = some (some recs) := by
    rw [hkey, Cache.get_set_self cc _ _ now1 now2 hstores, if_pos httl]
  have hs2 := lookupStep_hit n d2 ns (cc.set (cacheKey n d1) (some recs) now1)
    now2 (some recs) h2 hget2
  rw [hs1]
  dsimp only
  rw [hs2]
  simp [adapterCalls, Op.isAdapterCall]

/-- Witness for C3 (amended) at a concrete input: one non-empty result,
lookups at 0 ms and 1 ms with TTL 1000 ms — one adapter call in total. -/
theorem cache_hit_single_adapter_call_witness :
    adapterCalls
      ((lookupStep nodeInnerK (rowK (.vInt 1)) nsOneRec (some cacheMF)
          0).2.1 ++
        (lookupStep nodeInnerK (rowK (.vInt 1)) nsOneRec
          (lookupStep nodeInnerK (rowK (.vInt 1)) nsOneRec (some cacheMF)
            0).2.2 1).2.1) = 1 :=
  cache_hit_single_adapter_call nodeInnerK (rowK (.vInt 1)) (rowK (.vInt 1))
    nsOneRec cacheMF 0 1 [recA] (by decide) (by decide) rfl (by decide) rfl
    (Or.inl (by decide)) (by decide)

/-- C5 counterexample: with `cacheMissingKey = false`, the engine does call
the cache's `Set` with the empty (non-nil, length-zero) result it got from
the adapter — the skip happens inside the cache, not in the engine. -/
theorem engine_sets_empty_result :
    cacheMF.cacheMissingKey = false ∧
    Op.cacheSet (cacheKey nodeInnerK (rowK (.vInt 1))) (some []) ∈
      (lookupStep nodeInnerK (rowK (.vInt 1)) nsEmptyRes (some cacheMF)
        0).2.1 := by
  decide

/-- C5 (amended): with caching enabled and `cacheMissingKey = false`, a
cache-miss lookup whose adapter answer is empty calls `Set` with that empty
result, but the cache stores nothing (it is unchanged), so a later lookup of
the same key again reaches the adapter. -/
theorem empty_result_not_cached (n : LookupNode) (d : Tuple) (ns : Adapter)
    (cc : Cache) (now1 now2 : Nat)
    (h1 : hasNilKey n d = false)
    (hmk : cc.cacheMissingKey = false)
    (hmiss : cc.get (cacheKey n d) now1 = none)
    (hns : ns n.fields n.keys (keyVals n d) = .ok (some []))
    (hle : now1 ≤ now2) :
    (lookupStep n d ns (some cc) now1).2.2 = some cc ∧
    Op.cacheSet (cacheKey n d) (some []) ∈
      (lookupStep n d ns (some cc) now1).2.1 ∧
    Op.nsLookup (keyVals n d) ∈ (lookupStep n d ns (some cc) now2).2.1 := by
  have hnostore : cc.stores (some []) = false := by
    unfold Cache.stores
    simp [hmk]
  have hset : cc.set (cacheKey n d) (some []) now1 = cc := by
    unfold Cache.set
    simp [hnostore]
  have hs1 := lookupStep_miss n d ns cc now1 (some []) h1 hmiss hns
  have hmiss2 := Cache.get_none_mono cc (cacheKey n d) now1 now2 hmiss hle
  have hs2 := lookupStep_miss n d ns cc now2 (some []) h1 hmiss2 hns
  refine ⟨?_, ?_, ?_⟩
  · rw [hs1]
    dsimp only
    rw [hset]
  · rw [hs1]
    simp
  · rw [hs2]
    simp

/-- Witness for C5 (amended) at a concrete input: the empty result is
passed to `Set` at time 0 but not stored, and the lookup at time 5 again
invokes the adapter. -/
theorem empty_result_not_cached_witness :
    (lookupStep nodeInnerK (rowK (.vInt 1)) nsEmptyRes (some cacheMF)
      0).2.2 = some cacheMF ∧
    Op.cacheSet (cacheKey nodeInnerK (rowK (.vInt 1))) (some []) ∈
      (lookupStep nodeInnerK (rowK (.vInt 1)) nsEmptyRes (some cacheMF)
        0).2.1 ∧
    Op.nsLookup (keyVals nodeInnerK (rowK (.vInt 1))) ∈
      (lookupStep nodeInnerK (rowK (.vInt 1)) nsEmptyRes (some cacheMF)
        5).2.1 :=
  empty_result_not_cached nodeInnerK (rowK (.vInt 1)) nsEmptyRes cacheMF 0 5
    (by decide) (by decide) (by decide) rfl (by decide)
